import Mathlib

/-!
Verification development for the Notepad4 Visual Basic lexer
(`scintilla/lexers/LexVB.cxx`): a shallow embedding of the tokenizer
`ColouriseVBDoc` and the folder `FoldVBDoc`, together with theorems about
the properties stated in the specification.

Characters are modelled as byte values (`Nat`), documents as `List Nat`,
per-character styles as `List Nat` and per-line lexer annotations as an
association list `(line, low bits, parenCount)`.  The style constants and
the small character-class helpers live in headers that are not part of the
sources under verification (`SciLexer.h`, `CharacterSet.h`); they are
modelled here following the specification's description of their meaning
(in particular: exactly the default / comment-line / line-continuation
styles are "space equivalent").
-/

set_option autoImplicit false

set_option maxRecDepth 100000

set_option maxHeartbeats 2000000

/-- Style constants. Modelled from the spec: the numeric values come from
`SciLexer.h` (not part of the sources); the only property the lexer code
relies on is that exactly Default, CommentLine and LineContinuation are
`≤ SCE_VB_LINE_CONTINUATION` (the "space equivalent" styles). -/
def SCE_VB_DEFAULT : Nat := 0

def SCE_VB_COMMENTLINE : Nat := 1

def SCE_VB_LINE_CONTINUATION : Nat := 2

def SCE_VB_NUMBER : Nat := 3

def SCE_VB_KEYWORD : Nat := 4

def SCE_VB_KEYWORD2 : Nat := 5

def SCE_VB_KEYWORD3 : Nat := 6

def SCE_VB_ATTRIBUTE : Nat := 7

def SCE_VB_CONSTANT : Nat := 8

def SCE_VB_FUNCTION_DEFINITION : Nat := 9

def SCE_VB_STRING : Nat := 10

def SCE_VB_INTERPOLATED_STRING : Nat := 11

def SCE_VB_FORMAT_SPECIFIER : Nat := 12

def SCE_VB_DATE : Nat := 13

def SCE_VB_FILENUMBER : Nat := 14

def SCE_VB_OPERATOR : Nat := 15

def SCE_VB_OPERATOR2 : Nat := 16

def SCE_VB_IDENTIFIER : Nat := 17

def SCE_VB_LABEL : Nat := 18

def SCE_VB_PREPROCESSOR : Nat := 19

/-- `SC_FOLDLEVELBASE` from `Scintilla.h`. -/
def SC_FOLDLEVELBASE : Int := 1024

/-- The three dialects (`enum class Language` in LexVB.cxx). -/
inductive VBLanguage where
  | VBNET
  | VBA
  | VBScript
deriving DecidableEq, Repr

/-- `enum class KeywordType` in LexVB.cxx. -/
inductive KeywordType where
  | None
  | End
  | AccessModifier
  | Function
deriving DecidableEq, Repr

/-- Line-state bit constants from LexVB.cxx (`VBLineType_...`). -/
def VBLineType_CommentLine : Nat := 1

def VBLineType_DimLine : Nat := 2

def VBLineType_ConstLine : Nat := 3

def VBLineType_VB6TypeLine : Nat := 4

def VBLineStateLineContinuation : Nat := 8

def VBLineStateStringInterpolation : Nat := 16

/- Character-class helpers.  Modelled from the spec: these live in the
shared `CharacterSet.h` header (≈30 lines of shared character
classification per §2 of the spec); their meaning is the standard ASCII
classification the spec describes. -/

/-- ASCII decimal digit. -/
def isADigit (c : Nat) : Bool := 48 ≤ c && c ≤ 57

/-- ASCII letter. -/
def isAlphaCh (c : Nat) : Bool := (65 ≤ c && c ≤ 90) || (97 ≤ c && c ≤ 122)

/-- ASCII hexadecimal digit. -/
def isHexDigit (c : Nat) : Bool :=
  isADigit c || (65 ≤ c && c ≤ 70) || (97 ≤ c && c ≤ 102)

/-- Identifier continuation character (letter, digit or underscore). -/
def isIdentifierChar (c : Nat) : Bool := isAlphaCh c || isADigit c || c == 95

/-- Identifier continuation, extended with non-ASCII bytes. -/
def isIdentifierCharEx (c : Nat) : Bool := isIdentifierChar c || c ≥ 128

/-- Identifier start character (letter or underscore). -/
def isIdentifierStart (c : Nat) : Bool := isAlphaCh c || c == 95

/-- Identifier start, extended with non-ASCII bytes. -/
def isIdentifierStartEx (c : Nat) : Bool := isIdentifierStart c || c ≥ 128

/-- C `isspacechar`: space or one of the control whitespace characters. -/
def isspacechar (c : Nat) : Bool := c == 32 || (9 ≤ c && c ≤ 13)

/-- Printable non-space ASCII character. -/
def isAGraphic (c : Nat) : Bool := 32 < c && c < 127

/-- `UnsafeLower`: bitwise-or with 0x20 (lowercases ASCII letters). -/
def lowerCh (c : Nat) : Nat := c ||| 32

/-- `MakeLowerCase` as used by `GetCurrentLowered`: lowercase A-Z only. -/
def lowerAZ (c : Nat) : Nat := if 65 ≤ c ∧ c ≤ 90 then c + 32 else c

/-- `IsNumberStart(ch, chNext)`: digit, or dot followed by a digit. -/
def IsNumberStart (ch chNext : Nat) : Bool :=
  isADigit ch || (ch == 46 && isADigit chNext)

/- Predicates defined in LexVB.cxx itself (translated from the source). -/

/-- `IsTypeCharacter` (LexVB.cxx): VB type-suffix characters `% & ^ @ ! # $`. -/
def IsTypeCharacter (ch : Nat) : Bool :=
  ch == 37 || ch == 38 || ch == 94 || ch == 64 || ch == 33 || ch == 35 || ch == 36

/-- `IsVBNumberPrefix` (LexVB.cxx): radix indicator `h/H`, `o/O`, `b/B`
after `&`. -/
def IsVBNumberPrefixChar (ch : Nat) : Bool :=
  ch == 104 || ch == 72 || ch == 111 || ch == 79 || ch == 98 || ch == 66

/-- `PreferStringConcat` (LexVB.cxx): the previous significant character
prefers the string-concatenation reading of `&`. -/
def PreferStringConcat (chPrevNonWhite stylePrevNonWhite : Nat) : Bool :=
  chPrevNonWhite == 34 || chPrevNonWhite == 41 || chPrevNonWhite == 93
    || (stylePrevNonWhite != SCE_VB_KEYWORD && isIdentifierChar chPrevNonWhite)

/-- `IsVBNumber` (LexVB.cxx): characters that may extend a number token. -/
def IsVBNumber (ch chPrev : Nat) : Bool :=
  isHexDigit ch || ch == 95
    || (ch == 46 && chPrev != 46)
    || ((ch == 43 || ch == 45) && (chPrev == 69 || chPrev == 101))
    || ((ch == 83 || ch == 73 || ch == 76 || ch == 115 || ch == 105 || ch == 108)
        && (isADigit chPrev || chPrev == 85 || chPrev == 117))
    || ((ch == 82 || ch == 114 || ch == 37 || ch == 64 || ch == 33 || ch == 35)
        && isADigit chPrev)
    || (ch == 38 && isHexDigit chPrev)

/-- `IsSpaceEquiv` (LexVB.cxx): styles at or below LineContinuation. -/
def IsSpaceEquiv (state : Nat) : Bool := state ≤ SCE_VB_LINE_CONTINUATION

/-- `IsInvalidFormatSpecifier` (LexVB.cxx): characters that terminate an
interpolated-string format clause. -/
def IsInvalidFormatSpecifier (ch : Nat) : Bool :=
  ch < 32 || ch == 34 || ch == 123 || ch == 125

/- Document access (the LexAccessor / StyleContext view of the buffer). -/

/-- `SafeGetCharAt`: byte at a position, 0 outside the document. -/
def chAt (doc : List Nat) (i : Nat) : Nat := doc.getD i 0

/-- Character before a position (`sc.chPrev`), 0 at the start. -/
def chPrevAt (doc : List Nat) (i : Nat) : Nat :=
  if i = 0 then 0 else chAt doc (i - 1)

/-- Position `i` is the last character of a document line (or of the
document). -/
def isDocLineEnd (doc : List Nat) (i : Nat) : Bool :=
  chAt doc i == 10 || (chAt doc i == 13 && chAt doc (i + 1) != 10)

/-- `sc.atLineStart`: position `i` begins a document line. -/
def atLineStart (doc : List Nat) (i : Nat) : Bool :=
  i == 0 || chAt doc (i - 1) == 10
    || (chAt doc (i - 1) == 13 && chAt doc i != 10)

/-- `sc.atLineEnd`: position `i` is the last character of its line, or the
end of the document. -/
def atLineEnd (doc : List Nat) (i : Nat) : Bool :=
  decide (i + 1 ≥ doc.length) || isDocLineEnd doc i

/-- Helper for `GetLineNextChar`: scan forward from a position, skipping
spaces and tabs, stopping (with 0) at a line end or at `endPos`. -/
def glncAux (doc : List Nat) (endPos : Nat) : Nat → Nat → Nat
  | 0, _ => 0
  | f + 1, p =>
    if p ≥ endPos then 0
    else
      let c := chAt doc p
      if c = 32 ∨ c = 9 then glncAux doc endPos f (p + 1)
      else if c = 13 ∨ c = 10 then 0
      else c

/-- `sc.GetLineNextChar(onlyInnerSpace)`: the next visible character on
the current line (starting at the current position, or strictly after it
when `skipCur` is set), 0 if only blanks remain. -/
def getLineNextChar (doc : List Nat) (endPos pos : Nat) (skipCur : Bool) : Nat :=
  glncAux doc endPos endPos (if skipCur then pos + 1 else pos)

/-- Convert a string literal to its list of byte values (for building
concrete documents and keyword lists). -/
def lit (s : String) : List Nat := s.toList.map Char.toNat

/- The tokenizer state: the local variables of `ColouriseVBDoc` plus the
StyleContext bookkeeping (current line, styles already flushed, the
characters of the current style run, and the line annotations written so
far).  `styled`, `pending` and `anns` are kept in reverse order. -/

/-- The full scanning state of `ColouriseVBDoc` at one position. -/
structure VBSt where
  state : Nat
  kwType : KeywordType
  lineState : Nat
  parenCount : Int
  fileNbDigits : Nat
  visibleChars : Nat
  chBefore : Nat
  chPrevNonWhite : Nat
  stylePrevNonWhite : Nat
  isIfThenPreprocessor : Bool
  isEndPreprocessor : Bool
  nestedState : List Int
  line : Nat
  styled : List Nat
  pending : List Nat
  anns : List (Nat × Nat × Int)
deriving DecidableEq, Repr

/-- The configuration of one lex run: dialect and the six keyword sets. -/
structure VBParams where
  language : VBLanguage
  keywords : List (List Nat)
  keywords2 : List (List Nat)
  keywords3 : List (List Nat)
  keywords4 : List (List Nat)
  keywords5 : List (List Nat)
  keywords6 : List (List Nat)
deriving Repr

/-- An all-zero scanner state (the variable initialisation at the top of
`ColouriseVBDoc`). -/
def st0 : VBSt where
  state := SCE_VB_DEFAULT
  kwType := .None
  lineState := 0
  parenCount := 0
  fileNbDigits := 0
  visibleChars := 0
  chBefore := 0
  chPrevNonWhite := 0
  stylePrevNonWhite := SCE_VB_DEFAULT
  isIfThenPreprocessor := false
  isEndPreprocessor := false
  nestedState := []
  line := 0
  styled := []
  pending := []
  anns := []

/-- `sc.SetState(s)`: flush the current style run with the current state
and begin a new (empty) run in state `s`. -/
def flushTo (st : VBSt) (s : Nat) : VBSt :=
  { st with
    styled := List.replicate st.pending.length st.state ++ st.styled
    pending := []
    state := s }

/-- `sc.ChangeState(s)`: retroactively restyle the current run. -/
def chgState (st : VBSt) (s : Nat) : VBSt := { st with state := s }

/-- `sc.Forward()` restricted to the styled range: append the current
character to the pending run (and cross a line boundary) only while the
position is inside the range. -/
def pushPending (doc : List Nat) (endPos : Nat) (st : VBSt) (pos : Nat) : VBSt :=
  if pos < endPos then
    { st with
      pending := chAt doc pos :: st.pending
      line := if isDocLineEnd doc pos then st.line + 1 else st.line }
  else st

/-- Result of one arm of the scanning loop: `done` ends the iteration (a
C `continue` after the position advanced), `fall` lets the rest of the
loop body run. -/
inductive SwRes where
  | done : VBSt → Nat → SwRes
  | fall : VBSt → Nat → SwRes
deriving Repr

/-- The state carried by a `SwRes`. -/
def SwRes.st : SwRes → VBSt
  | .done s _ => s
  | .fall s _ => s

/-- The position carried by a `SwRes`. -/
def SwRes.pos : SwRes → Nat
  | .done _ p => p
  | .fall _ p => p

/- The big identifier-classification block (LexVB.cxx lines 168-224),
executed when an identifier token ends and no type suffix was consumed.
`tok` is the lowercased token text (`GetCurrentLowered`, truncated to 63
bytes), `len` the untruncated token length (`LengthCurrent`), and `pos`
the position of the character that ended the token. -/

/-- The fields the identifier-classification block can change: the run's
style (`ChangeState`), the line classification, `kwType` and the two
preprocessor-continuation flags. -/
structure ClsRes where
  state : Nat
  lineState : Nat
  kwType : KeywordType
  isIfThenPreprocessor : Bool
  isEndPreprocessor : Bool
deriving DecidableEq, Repr

/-- The branch structure of the classification block, producing the
changed fields (the order of tests follows LexVB.cxx lines 170-219). -/
def classifyCore (P : VBParams) (doc : List Nat) (endPos : Nat) (st : VBSt)
    (pos : Nat) (tok : List Nat) (len : Nat) : ClsRes :=
  let chNext := getLineNextChar doc endPos pos false
  let base : ClsRes := {
    state := st.state
    lineState := st.lineState
    kwType := st.kwType
    isIfThenPreprocessor := st.isIfThenPreprocessor
    isEndPreprocessor := st.isEndPreprocessor }
  if tok.headD 0 = 91 then
    if st.visibleChars = len ∧ chNext = 58 then { base with state := SCE_VB_LABEL }
    else base
  else if (st.isIfThenPreprocessor ∧ tok = lit "then")
      ∨ (st.isEndPreprocessor ∧ (tok = lit "if" ∨ tok = lit "region" ∨ tok = lit "externalsource")) then
    { base with state := SCE_VB_PREPROCESSOR }
  else if P.keywords.contains tok then
    if st.chBefore ≠ 46 ∧ st.parenCount = 0 then
      let base := { base with state := SCE_VB_KEYWORD }
      if tok = lit "if" then
        if P.language = .VBNET ∧ st.visibleChars > 2 ∧ chNext = 40 then
          { base with state := SCE_VB_KEYWORD3 }
        else base
      else if tok = lit "dim" then { base with lineState := VBLineType_DimLine }
      else if tok = lit "const" then { base with lineState := VBLineType_ConstLine }
      else if tok = lit "type" then
        if st.visibleChars = len ∨ st.kwType = .AccessModifier then
          { base with lineState := VBLineType_VB6TypeLine }
        else base
      else if tok = lit "end" then { base with kwType := .End }
      else if tok = lit "sub" ∨ tok = lit "function" then
        if st.kwType ≠ .End then { base with kwType := .Function } else base
      else if tok = lit "public" ∨ tok = lit "protected" ∨ tok = lit "private"
          ∨ tok = lit "friend" then
        { base with kwType := .AccessModifier }
      else base
    else { base with state := SCE_VB_KEYWORD3 }
  else if P.keywords2.contains tok then { base with state := SCE_VB_KEYWORD2 }
  else if st.visibleChars = len ∧ chNext = 58 then { base with state := SCE_VB_LABEL }
  else if P.keywords3.contains tok then { base with state := SCE_VB_KEYWORD3 }
  else if P.language ≠ .VBScript ∧ tok.headD 0 = 35 ∧ P.keywords4.contains tok.tail then
    { base with
      state := SCE_VB_PREPROCESSOR
      isIfThenPreprocessor := tok = lit "#if" ∨ tok = lit "#elseif"
      isEndPreprocessor := tok = lit "#end" }
  else if P.keywords5.contains tok then { base with state := SCE_VB_ATTRIBUTE }
  else if P.keywords6.contains tok then { base with state := SCE_VB_CONSTANT }
  else if st.kwType = .Function then { base with state := SCE_VB_FUNCTION_DEFINITION }
  else base

/-- Identifier classification: keyword lookup, labels, preprocessor words
and the `kwType` / `lineState` side effects, followed by the
`stylePrevNonWhite` update and the `kwType` reset for non-keyword styles
(LexVB.cxx lines 168-224). -/
def classifyIdent (P : VBParams) (doc : List Nat) (endPos : Nat) (st : VBSt)
    (pos : Nat) (tok : List Nat) (len : Nat) : VBSt :=
  let r := classifyCore P doc endPos st pos tok len
  let st := { st with
    state := r.state
    lineState := r.lineState
    kwType := r.kwType
    isIfThenPreprocessor := r.isIfThenPreprocessor
    isEndPreprocessor := r.isEndPreprocessor
    stylePrevNonWhite := r.state }
  if st.state ≠ SCE_VB_KEYWORD then { st with kwType := .None } else st

/-- The `SCE_VB_IDENTIFIER` arm of the scanning loop: extend the
identifier, optionally consume one type-suffix character or a closing
bracket, then classify the collected token. -/
def identCase (P : VBParams) (doc : List Nat) (endPos : Nat) (st : VBSt)
    (pos : Nat) : SwRes :=
  if isIdentifierCharEx (chAt doc pos) then .fall st pos
  else
    let ch := chAt doc pos
    let suffixTaken := ch = 93 ∨ (P.language ≠ .VBScript ∧ IsTypeCharacter ch)
    let skipT := suffixTaken ∧ ch ≠ 93
    let st := if suffixTaken then
        pushPending doc endPos { st with visibleChars := st.visibleChars + 1 } pos
      else st
    let pos := if suffixTaken then pos + 1 else pos
    let tok := (st.pending.reverse.take 63).map lowerAZ
    let len := st.pending.length
    let tok := if skipT ∧ len = 4 then tok.take 3 else tok
    if tok = lit "rem" then .fall (chgState st SCE_VB_COMMENTLINE) pos
    else
      let st := if skipT then st else classifyIdent P doc endPos st pos tok len
      .fall (flushTo st SCE_VB_DEFAULT) pos

/-- The `SCE_VB_STRING` / `SCE_VB_INTERPOLATED_STRING` arm: escaped and
closing quotes, line-boundary handling, and the interpolated-string brace
logic (`{` opens a nested embedded expression, `}` with a non-empty nest
stack closes it). -/
def stringCase (P : VBParams) (doc : List Nat) (endPos : Nat) (st : VBSt)
    (pos : Nat) : SwRes :=
  let ch := chAt doc pos
  if atLineStart doc pos ∧ P.language ≠ .VBNET then
    .fall (flushTo st SCE_VB_DEFAULT) pos
  else if ch = 34 then
    if chAt doc (pos + 1) = 34 then .fall (pushPending doc endPos st pos) (pos + 1)
    else
      let suff := chAt doc (pos + 1) = 99 ∨ chAt doc (pos + 1) = 67 ∨ chAt doc (pos + 1) = 36
      let st := pushPending doc endPos st pos
      let pos := pos + 1
      let st := if suff then pushPending doc endPos st pos else st
      let pos := if suff then pos + 1 else pos
      .fall (flushTo st SCE_VB_DEFAULT) pos
  else if st.state = SCE_VB_INTERPOLATED_STRING then
    if ch = 123 then
      if chAt doc (pos + 1) = 123 then .fall (pushPending doc endPos st pos) (pos + 1)
      else
        let st := { st with
          parenCount := st.parenCount + 1
          nestedState := 0 :: st.nestedState }
        let st := flushTo st SCE_VB_OPERATOR2
        .fall (flushTo (pushPending doc endPos st pos) SCE_VB_DEFAULT) (pos + 1)
    else if ch = 125 then
      if st.nestedState ≠ [] then
        let st := { st with
          parenCount := st.parenCount - 1
          nestedState := st.nestedState.tail }
        let st := flushTo st SCE_VB_OPERATOR2
        .done (flushTo (pushPending doc endPos st pos) SCE_VB_INTERPOLATED_STRING) (pos + 1)
      else if chAt doc (pos + 1) = 125 then
        .fall (pushPending doc endPos st pos) (pos + 1)
      else .fall st pos
    else .fall st pos
  else .fall st pos

/-- The `SCE_VB_COMMENTLINE` arm: comment runs to the end of line, with
the VBA `_` line-continuation-in-comment rule. -/
def commentCase (P : VBParams) (doc : List Nat) (endPos : Nat) (st : VBSt)
    (pos : Nat) : SwRes :=
  if atLineStart doc pos then
    if st.lineState = VBLineStateLineContinuation then
      .fall { st with lineState := VBLineType_CommentLine } pos
    else .fall (flushTo st SCE_VB_DEFAULT) pos
  else if P.language = .VBA ∧ chAt doc pos = 95 ∧ chPrevAt doc pos ≤ 32 then
    if getLineNextChar doc endPos pos true = 0 then
      let st := { st with lineState := st.lineState ||| VBLineStateLineContinuation }
      let st := flushTo st SCE_VB_LINE_CONTINUATION
      .fall (flushTo (pushPending doc endPos st pos) SCE_VB_COMMENTLINE) (pos + 1)
    else .fall st pos
  else .fall st pos

/-- The `SCE_VB_FILENUMBER` arm: disambiguation between file handles
(`#1`), dates and plain numbers. -/
def fileNumberCase (doc : List Nat) (endPos : Nat) (st : VBSt) (pos : Nat) : SwRes :=
  let ch := chAt doc pos
  if isADigit ch then
    let st := { st with fileNbDigits := st.fileNbDigits + 1 }
    if st.fileNbDigits > 3 then .fall (chgState { st with fileNbDigits := 0 } SCE_VB_DATE) pos
    else .fall st pos
  else if ch = 13 ∨ ch = 10 ∨ ch = 44 then
    .fall (flushTo (chgState { st with fileNbDigits := 0 } SCE_VB_NUMBER) SCE_VB_DEFAULT) pos
  else if ch = 35 then
    let st := chgState { st with fileNbDigits := 0 } SCE_VB_DATE
    .fall (flushTo (pushPending doc endPos st pos) SCE_VB_DEFAULT) (pos + 1)
  else .fall (chgState { st with fileNbDigits := 0 } SCE_VB_DATE) pos

/-- The `SCE_VB_DATE` arm: a date literal runs to a closing `#` or to the
start of the next line. -/
def dateCase (doc : List Nat) (endPos : Nat) (st : VBSt) (pos : Nat) : SwRes :=
  if atLineStart doc pos then .fall (flushTo st SCE_VB_DEFAULT) pos
  else if chAt doc pos = 35 then
    .fall (flushTo (pushPending doc endPos st pos) SCE_VB_DEFAULT) (pos + 1)
  else .fall st pos

/-- The `SCE_VB_FORMAT_SPECIFIER` arm: on an invalid format character the
scanner flushes the clause and reprocesses the same character in the
interpolated-string state (the C `continue`). -/
def formatCase (P : VBParams) (doc : List Nat) (endPos : Nat) (st : VBSt)
    (pos : Nat) : SwRes :=
  if IsInvalidFormatSpecifier (chAt doc pos) then
    stringCase P doc endPos (flushTo st SCE_VB_INTERPOLATED_STRING) pos
  else .fall st pos

/-- `IsInterpolatedStringEnd` (LexVB.cxx): a character that ends the
embedded expression of an interpolated string — `}`, `:` (format clause)
or `,` followed by a (possibly negative) alignment number. -/
def IsInterpolatedStringEnd (doc : List Nat) (pos : Nat) : Bool :=
  let ch := chAt doc pos
  ch == 125 || ch == 58
    || (ch == 44 && (isADigit (chAt doc (pos + 1))
        || (chAt doc (pos + 1) == 45 && isADigit (chAt doc (pos + 2)))))

/-- Add `d` to the innermost counter of the interpolation nest stack. -/
def bumpTop (l : List Int) (d : Int) : List Int :=
  match l with
  | [] => []
  | x :: xs => (x + d) :: xs

/-- The switch over the current lexical state at one position (the first
half of the `ColouriseVBDoc` loop body). -/
def vbSwitch (P : VBParams) (doc : List Nat) (endPos : Nat) (st : VBSt)
    (pos : Nat) : SwRes :=
  if st.state = SCE_VB_OPERATOR ∨ st.state = SCE_VB_OPERATOR2
      ∨ st.state = SCE_VB_LINE_CONTINUATION then
    .fall (flushTo st SCE_VB_DEFAULT) pos
  else if st.state = SCE_VB_IDENTIFIER then identCase P doc endPos st pos
  else if st.state = SCE_VB_NUMBER then
    if IsVBNumber (chAt doc pos) (chPrevAt doc pos) then .fall st pos
    else .fall (flushTo st SCE_VB_DEFAULT) pos
  else if st.state = SCE_VB_STRING ∨ st.state = SCE_VB_INTERPOLATED_STRING then
    stringCase P doc endPos st pos
  else if st.state = SCE_VB_COMMENTLINE then commentCase P doc endPos st pos
  else if st.state = SCE_VB_FILENUMBER then fileNumberCase doc endPos st pos
  else if st.state = SCE_VB_DATE then dateCase doc endPos st pos
  else if st.state = SCE_VB_FORMAT_SPECIFIER then formatCase P doc endPos st pos
  else .fall st pos

/-- The graphic-character arm of the default dispatch: operator styling
with paren bookkeeping outside interpolation, and the nest-counter /
expression-end logic inside an interpolated string's embedded
expression. -/
def operCase (P : VBParams) (doc : List Nat) (endPos : Nat) (st : VBSt)
    (pos : Nat) : SwRes :=
  let ch := chAt doc pos
  if st.nestedState = [] then
    let st := flushTo st SCE_VB_OPERATOR
    if ch = 40 then .fall { st with parenCount := st.parenCount + 1 } pos
    else if ch = 41 ∧ st.parenCount > 0 then
      .fall { st with parenCount := st.parenCount - 1 } pos
    else .fall st pos
  else
    let st := chgState (flushTo st SCE_VB_OPERATOR) SCE_VB_OPERATOR2
    let st :=
      if ch = 40 then { st with nestedState := bumpTop st.nestedState 1 }
      else if ch = 41 then { st with nestedState := bumpTop st.nestedState (-1) }
      else st
    if st.nestedState.headD 0 ≤ 0 ∧ IsInterpolatedStringEnd doc pos then
      if ch = 125 then
        stringCase P doc endPos (chgState st SCE_VB_INTERPOLATED_STRING) pos
      else .fall (chgState st SCE_VB_FORMAT_SPECIFIER) pos
    else .fall st pos

/-- The default-state dispatch (the `if (sc.state == SCE_VB_DEFAULT)`
block of the loop body): start of comments, strings, numbers, identifiers,
line continuations and operators, with paren/brace bookkeeping. -/
def vbDispatch (P : VBParams) (doc : List Nat) (endPos : Nat) (st : VBSt)
    (pos : Nat) : SwRes :=
  let ch := chAt doc pos
  let chNext := chAt doc (pos + 1)
  if ch = 39 then
    let st := flushTo st SCE_VB_COMMENTLINE
    .fall (if st.visibleChars = 0 then { st with lineState := VBLineType_CommentLine } else st) pos
  else if ch = 34 then .fall (flushTo st SCE_VB_STRING) pos
  else if P.language = .VBNET ∧ ch = 36 ∧ chNext = 34 then
    .fall (pushPending doc endPos (flushTo st SCE_VB_INTERPOLATED_STRING) pos) (pos + 1)
  else if ch = 35 then
    let cn := lowerCh chNext
    if cn = 101 ∨ cn = 105 ∨ cn = 114 ∨ cn = 99 then
      .fall (flushTo st SCE_VB_IDENTIFIER) pos
    else .fall (flushTo st SCE_VB_FILENUMBER) pos
  else if ch = 38 ∧ IsVBNumberPrefixChar chNext
      ∧ ¬ PreferStringConcat st.chPrevNonWhite st.stylePrevNonWhite then
    .fall (pushPending doc endPos (flushTo st SCE_VB_NUMBER) pos) (pos + 1)
  else if IsNumberStart ch chNext then .fall (flushTo st SCE_VB_NUMBER) pos
  else if ch = 95 ∧ chNext ≤ 32 then .fall (flushTo st SCE_VB_LINE_CONTINUATION) pos
  else if isIdentifierStartEx ch ∨ ch = 91 then
    .fall (flushTo { st with chBefore := st.chPrevNonWhite } SCE_VB_IDENTIFIER) pos
  else if isAGraphic ch then operCase P doc endPos st pos
  else .fall st pos

/-- The tail of the loop body: track the last visible character, write the
line annotation at a line end, and advance (`sc.Forward()`). -/
def vbFinish (doc : List Nat) (endPos : Nat) (st : VBSt) (pos : Nat) : VBSt × Nat :=
  let ch := chAt doc pos
  let st :=
    if ¬ isspacechar ch then
      let st := { st with visibleChars := st.visibleChars + 1 }
      if ¬ IsSpaceEquiv st.state then
        { st with chPrevNonWhite := ch, stylePrevNonWhite := st.state }
      else st
    else st
  let st :=
    if atLineEnd doc pos then
      let ls := if st.nestedState ≠ [] then st.lineState ||| VBLineStateStringInterpolation
        else st.lineState
      { st with
        anns := (st.line, ls, st.parenCount) :: st.anns
        lineState := ls &&& VBLineStateLineContinuation
        isIfThenPreprocessor := false
        isEndPreprocessor := false
        visibleChars := 0
        kwType := .None }
    else st
  (pushPending doc endPos st pos, pos + 1)

/-- One full iteration of the `ColouriseVBDoc` scanning loop at one
position: the state switch, then (when the state fell back to Default)
the default dispatch, then the bookkeeping tail. -/
def vbIter (P : VBParams) (doc : List Nat) (endPos : Nat) (st : VBSt)
    (pos : Nat) : VBSt × Nat :=
  match vbSwitch P doc endPos st pos with
  | .done st1 p1 => (st1, p1)
  | .fall st1 p1 =>
    match (if st1.state = SCE_VB_DEFAULT then vbDispatch P doc endPos st1 p1
      else .fall st1 p1) with
    | .done st2 p2 => (st2, p2)
    | .fall st2 p2 => vbFinish doc endPos st2 p2

/-- The scanning loop (`while (sc.More())`), fuelled by the number of
remaining positions; every iteration advances by at least one position, so
fuel `endPos - pos` always suffices. -/
def vbRun (P : VBParams) (doc : List Nat) (endPos : Nat) : Nat → VBSt → Nat → VBSt
  | 0, st, _ => st
  | fuel + 1, st, pos =>
    if pos < endPos then
      let r := vbIter P doc endPos st pos
      vbRun P doc endPos fuel r.1 r.2
    else st

/-- Number of document line ends strictly before a position
(`styler.GetLine`). -/
def docLine (doc : List Nat) (pos : Nat) : Nat :=
  ((List.range pos).filter (fun i => isDocLineEnd doc i)).length

/-- Helper: start position of line `n + 1` given a scan start. -/
def nextLineStartAux (doc : List Nat) : Nat → Nat → Nat
  | 0, _ => doc.length
  | f + 1, p =>
    if p ≥ doc.length then doc.length
    else if isDocLineEnd doc p then p + 1
    else nextLineStartAux doc f (p + 1)

/-- Position just after the line terminator of the line containing `p`
(scanning from `p`). -/
def nextLineStart (doc : List Nat) (p : Nat) : Nat :=
  nextLineStartAux doc (doc.length + 1) p

/-- `styler.LineStart(n)`: start position of line `n` (document length
when past the last line). -/
def lineStart (doc : List Nat) : Nat → Nat
  | 0 => 0
  | n + 1 => nextLineStart doc (lineStart doc n)

/-- Look up the persisted annotation of a line: `(low bits, parenCount)`,
`(0, 0)` when the line has no stored state (`styler.GetLineState`). -/
def annAt (anns : List (Nat × Nat × Int)) (line : Nat) : Nat × Int :=
  match anns.find? (fun a => a.1 = line) with
  | some a => a.2
  | none => (0, 0)

/-- Modelled from the spec: `BacktrackToStart` (in `LexAccessor.h`, not
part of the sources) scans backward from the line before the resume point
over the contiguous run of lines whose annotation carries the
string-interpolation flag, returning the first line of that run; the lex
is restarted at that line's start so the interpolated-string expression is
re-entered from the line that opened it. -/
def btScan (anns : List (Nat × Nat × Int)) : Nat → Nat
  | 0 => if (annAt anns 0).1 &&& VBLineStateStringInterpolation ≠ 0 then 0 else 1
  | l + 1 =>
    if (annAt anns (l + 1)).1 &&& VBLineStateStringInterpolation ≠ 0 then btScan anns l
    else l + 2

/-- Modelled from the spec: `LookbackNonWhite` (in `LexAccessor.cxx`, not
part of the sources) walks backward from the position before the resume
point until it finds a character whose recorded style is above the
space-equivalent styles, recovering the last significant character and its
style; `(0, 0)` if there is none. -/
def lookbackNonWhite (doc : List Nat) (priorStyles : List Nat) : Nat → Nat × Nat
  | 0 =>
    if priorStyles.getD 0 0 > SCE_VB_LINE_CONTINUATION then
      (chAt doc 0, priorStyles.getD 0 0)
    else (0, SCE_VB_DEFAULT)
  | q + 1 =>
    if priorStyles.getD (q + 1) 0 > SCE_VB_LINE_CONTINUATION then
      (chAt doc (q + 1), priorStyles.getD (q + 1) 0)
    else lookbackNonWhite doc priorStyles q

/-- The output of one tokenizer invocation: the styles of the range that
was actually lexed (which may start before the requested position when the
interpolation backtrack fired), the line annotations written, the start of
the styled range, and the final scanner state. -/
structure VBOut where
  styles : List Nat
  anns : List (Nat × Nat × Int)
  startedAt : Nat
  final : VBSt
deriving Repr

/-- `ColouriseVBDoc`: seed the scanner state (with the resumption logic:
interpolation backtrack, previous line annotation, look-back for the last
significant character), run the scanning loop over the range and flush the
final style run (`sc.Complete()`). -/
def ColouriseVBDoc (P : VBParams) (doc : List Nat) (startPos endPos : Nat)
    (initStyle : Nat) (priorAnns : List (Nat × Nat × Int))
    (priorStyles : List Nat) : VBOut :=
  let cur := docLine doc startPos
  let btLine := if startPos ≠ 0 ∧ cur ≠ 0 then btScan priorAnns (cur - 1) else cur
  let moved := startPos ≠ 0 ∧ cur ≠ 0 ∧ btLine ≠ cur
  let lexStart := if moved then lineStart doc btLine else startPos
  let initStyle := if moved then
      (if lexStart = 0 then 0 else priorStyles.getD (lexStart - 1) 0)
    else initStyle
  let line := docLine doc lexStart
  let seed : VBSt := { st0 with state := initStyle, line := line }
  let seed := if line > 0 then
      let a := annAt priorAnns (line - 1)
      { seed with
        lineState := a.1 &&& VBLineStateLineContinuation
        parenCount := a.2 }
    else seed
  let seed := if lexStart ≠ 0 ∧ IsSpaceEquiv initStyle then
      let r := lookbackNonWhite doc priorStyles (lexStart - 1)
      { seed with chPrevNonWhite := r.1, stylePrevNonWhite := r.2 }
    else seed
  let fin := vbRun P doc endPos (endPos - lexStart) seed lexStart
  let fin := flushTo fin fin.state
  { styles := fin.styled.reverse
    anns := fin.anns.reverse
    startedAt := lexStart
    final := fin }

/-- A full-document lex in one call, starting from nothing. -/
def fullLexVB (P : VBParams) (doc : List Nat) : VBOut :=
  ColouriseVBDoc P doc 0 doc.length 0 [] []

/-- A full-document lex in two calls split at the start of line `k`: the
second call resumes with the style before the split and the annotations
and styles persisted by the first call, exactly as the host editor would
invoke an incremental re-lex. -/
def splitLexVB (P : VBParams) (doc : List Nat) (k : Nat) : List Nat :=
  let b := lineStart doc k
  let first := ColouriseVBDoc P doc 0 b 0 [] []
  let second := ColouriseVBDoc P doc b doc.length
    (first.styles.getD (b - 1) 0) first.anns first.styles
  first.styles.take second.startedAt ++ second.styles

/- The folder (`FoldVBDoc` and its helpers).  The two C `static` line
trackers `lineIf` / `lineThen` are modelled as explicit inputs and outputs
of the fold invocation, so that their effect on the result can be stated. -/

/-- `styler.MatchLowerCase(pos, word)`: the bytes at `pos` match `word`
after `UnsafeLower`. -/
def matchLC (doc : List Nat) : Nat → List Nat → Bool
  | _, [] => true
  | pos, c :: cs => lowerCh (chAt doc pos) == c && matchLC doc (pos + 1) cs

/-- `LexSkipSpaceTab`: first position at or after `p` (bounded by
`endPos`) whose character is not a space or tab. -/
def skipSpaceTabAux (doc : List Nat) (endPos : Nat) : Nat → Nat → Nat
  | 0, p => p
  | f + 1, p =>
    if p < endPos ∧ (chAt doc p = 32 ∨ chAt doc p = 9) then
      skipSpaceTabAux doc endPos f (p + 1)
    else p

/-- `LexSkipSpaceTab` with its fuel instantiated. -/
def skipSpaceTab (doc : List Nat) (endPos p : Nat) : Nat :=
  skipSpaceTabAux doc endPos endPos p

/-- `VBMatchNextWord`: the next word (after skipping spaces/tabs) matches
`word` and is followed by a whitespace character. -/
def VBMatchNextWord (doc : List Nat) (endPos p : Nat) (word : List Nat) : Bool :=
  let q := skipSpaceTab doc endPos p
  isspacechar (chAt doc (q + word.length)) && matchLC doc q word

/-- Helper loop of `IsVBProperty`. -/
def isVBPropertyAux (doc styles : List Nat) (endP : Nat) : Nat → Nat → Bool → Nat
  | 0, _, _ => 0
  | f + 1, i, vis =>
    if i < endP then
      let ch := lowerCh (chAt doc i)
      let sty := styles.getD i 0
      if sty = SCE_VB_OPERATOR ∧ ch = 40 then 1
      else if sty = SCE_VB_KEYWORD ∧ ¬ vis ∧ (ch = 103 ∨ ch = 108 ∨ ch = 115)
          ∧ lowerCh (chAt doc (i + 1)) = 101 ∧ lowerCh (chAt doc (i + 2)) = 116
          ∧ isspacechar (chAt doc (i + 3)) then 2
      else isVBPropertyAux doc styles endP f (i + 1) (vis ∨ ch > 32)
    else 0

/-- `IsVBProperty`: scan the rest of a `Property` line — 1 when an opening
paren is found (block property), 2 when a `Get`/`Let`/`Set` keyword starts
the remainder (one-line auto property), 0 otherwise. -/
def IsVBProperty (doc styles : List Nat) (line sPos : Nat) : Nat :=
  let endP := lineStart doc (line + 1) - 1
  isVBPropertyAux doc styles endP (endP + 1) sPos false

/-- The running state of one `FoldVBDoc` invocation. -/
structure FoldSt where
  levelNext : Int
  levelCurrent : Int
  visibleChars : Nat
  numBegin : Nat
  isEnd : Bool
  isInterface : Bool
  isProperty : Bool
  isCustom : Bool
  isExit : Bool
  isDeclare : Bool
  isIf : Bool
  lineIf : Nat
  lineThen : Nat
  lineCurrent : Nat
  lineStartNext : Nat
  foldPrev : Nat
  foldCurrent : Nat
  levels : List (Nat × Int × Int × Bool)
deriving DecidableEq, Repr

/-- `FoldLineState::GetLineType`: the low two bits of a line state. -/
def foldLineType (lineState : Nat) : Nat := lineState &&& 3

/-- The keyword-trigger block of the fold loop body (executed when the
style at `i` is Keyword and the previous character's style is not). -/
def foldKeyword (doc styles : List Nat) (endPos : Nat) (st : FoldSt)
    (i : Nat) : FoldSt :=
  if st.visibleChars = 0 ∧ (matchLC doc i (lit "for")
      ∨ (matchLC doc i (lit "do") ∧ isspacechar (chAt doc (i + 2)))
      ∨ matchLC doc i (lit "while")
      ∨ (matchLC doc i (lit "try") ∧ isspacechar (chAt doc (i + 3)))
      ∨ (matchLC doc i (lit "select") ∧ VBMatchNextWord doc endPos (i + 6) (lit "case"))
      ∨ (matchLC doc i (lit "with") ∧ isspacechar (chAt doc (i + 4)))
      ∨ matchLC doc i (lit "namespace") ∨ matchLC doc i (lit "synclock")
      ∨ matchLC doc i (lit "using")
      ∨ (st.isProperty ∧ (matchLC doc i (lit "set")
          ∨ (matchLC doc i (lit "get") ∧ isspacechar (chAt doc (i + 3)))))
      ∨ (st.isCustom ∧ (matchLC doc i (lit "raiseevent")
          ∨ matchLC doc i (lit "addhandler") ∨ matchLC doc i (lit "removehandler")))) then
    { st with levelNext := st.levelNext + 1 }
  else if st.visibleChars = 0 ∧ (matchLC doc i (lit "next")
      ∨ matchLC doc i (lit "loop") ∨ matchLC doc i (lit "wend")) then
    { st with levelNext := st.levelNext - 1 }
  else if matchLC doc i (lit "exit") ∧ (VBMatchNextWord doc endPos (i + 4) (lit "function")
      ∨ VBMatchNextWord doc endPos (i + 4) (lit "sub")
      ∨ VBMatchNextWord doc endPos (i + 4) (lit "property")) then
    { st with isExit := true }
  else if matchLC doc i (lit "begin") then
    let st : FoldSt := { st with levelNext := st.levelNext + 1 }
    if isspacechar (chAt doc (i + 5)) then { st with numBegin := st.numBegin + 1 } else st
  else if matchLC doc i (lit "end") then
    let st : FoldSt := { st with levelNext := st.levelNext - 1 }
    let chEnd0 := chAt doc (i + 3)
    let p := skipSpaceTab doc endPos (i + 3)
    let chEnd := if chEnd0 = 32 ∨ chEnd0 = 9 then chAt doc p else chEnd0
    let st : FoldSt :=
      if (chEnd0 = 32 ∨ chEnd0 = 9) ∧ isAlphaCh chEnd
          ∧ (VBMatchNextWord doc endPos p (lit "function")
            ∨ VBMatchNextWord doc endPos p (lit "sub")
            ∨ VBMatchNextWord doc endPos p (lit "if")
            ∨ VBMatchNextWord doc endPos p (lit "class")
            ∨ VBMatchNextWord doc endPos p (lit "structure")
            ∨ VBMatchNextWord doc endPos p (lit "module")
            ∨ VBMatchNextWord doc endPos p (lit "enum")
            ∨ VBMatchNextWord doc endPos p (lit "interface")
            ∨ VBMatchNextWord doc endPos p (lit "operator")
            ∨ VBMatchNextWord doc endPos p (lit "property")
            ∨ VBMatchNextWord doc endPos p (lit "event")
            ∨ VBMatchNextWord doc endPos p (lit "type")) then
        { st with isEnd := true }
      else st
    let st : FoldSt :=
      if chEnd = 13 ∨ chEnd = 10 ∨ chEnd = 39 then
        let st : FoldSt := { st with isEnd := false }
        let st : FoldSt := if st.numBegin = 0 then { st with levelNext := st.levelNext + 1 } else st
        if st.numBegin > 0 then { st with numBegin := st.numBegin - 1 } else st
      else st
    let st : FoldSt := if matchLC doc i (lit "endif") then { st with isIf := false } else st
    if st.lineCurrent = st.lineIf ∧ st.lineCurrent = st.lineThen then
      { st with levelNext := st.levelNext + 1 }
    else st
  else if matchLC doc i (lit "if") then
    let st : FoldSt := { st with isIf := true, lineIf := st.lineCurrent }
    if st.isEnd then { st with isEnd := false, isIf := false }
    else { st with levelNext := st.levelNext + 1 }
  else if matchLC doc i (lit "then") then
    let st : FoldSt :=
      if st.isIf then
        let st : FoldSt := { st with isIf := false }
        let p := skipSpaceTab doc endPos (i + 4)
        let chEnd := chAt doc p
        if ¬ (chEnd = 13 ∨ chEnd = 10 ∨ chEnd = 39) then
          { st with levelNext := st.levelNext - 1 }
        else st
      else st
    { st with lineThen := st.lineCurrent }
  else if (¬ st.isInterface ∧ (matchLC doc i (lit "class") ∨ matchLC doc i (lit "structure")))
      ∨ matchLC doc i (lit "module") ∨ matchLC doc i (lit "enum")
      ∨ matchLC doc i (lit "operator") then
    if st.isEnd then { st with isEnd := false }
    else { st with levelNext := st.levelNext + 1 }
  else if matchLC doc i (lit "interface") then
    let st : FoldSt := if ¬ (st.isEnd ∨ st.isInterface) then { st with levelNext := st.levelNext + 1 } else st
    let st : FoldSt := { st with isInterface := true }
    if st.isEnd then { st with isEnd := false, isInterface := false } else st
  else if matchLC doc i (lit "declare") ∨ matchLC doc i (lit "delegate") then
    { st with isDeclare := true }
  else if ¬ st.isInterface ∧ (matchLC doc i (lit "sub") ∨ matchLC doc i (lit "function")) then
    let st : FoldSt := if ¬ (st.isEnd ∨ st.isExit ∨ st.isDeclare) then
        { st with levelNext := st.levelNext + 1 }
      else st
    let st : FoldSt := if st.isEnd then { st with isEnd := false } else st
    let st : FoldSt := if st.isExit then { st with isExit := false } else st
    if st.isDeclare then { st with isDeclare := false } else st
  else if ¬ st.isInterface ∧ matchLC doc i (lit "property") then
    let st : FoldSt := { st with isProperty := true }
    let st : FoldSt :=
      if ¬ (st.isEnd ∨ st.isExit) then
        let r := IsVBProperty doc styles st.lineCurrent (i + 8)
        let st : FoldSt := if r ≠ 0 then { st with levelNext := st.levelNext + 1 } else st
        { st with isProperty := r &&& 1 = 1 }
      else st
    let st : FoldSt := if st.isEnd then { st with isEnd := false, isProperty := false } else st
    if st.isExit then { st with isExit := false } else st
  else if matchLC doc i (lit "custom") then { st with isCustom := true }
  else if ¬ st.isInterface ∧ st.isCustom ∧ matchLC doc i (lit "event") then
    if st.isEnd then { st with isEnd := false, isCustom := false }
    else { st with levelNext := st.levelNext + 1 }
  else if matchLC doc i (lit "type") ∧ isspacechar (chAt doc (i + 4)) then
    let st : FoldSt :=
      if ¬ st.isEnd ∧ st.foldCurrent &&& VBLineType_VB6TypeLine ≠ 0 then
        { st with levelNext := st.levelNext + 1 }
      else st
    if st.isEnd then { st with isEnd := false } else st
  else st

/-- One iteration of the fold loop at position `i` (trigger evaluation,
visible-character tracking and the per-line record at a line boundary). -/
def foldIter (doc styles : List Nat) (anns : List (Nat × Nat × Int))
    (endPos : Nat) (st : FoldSt) (i : Nat) : FoldSt :=
  let style := styles.getD i 0
  let stylePrev := if i = 0 then 0 else styles.getD (i - 1) 0
  let ch := chAt doc i
  let st : FoldSt :=
    if style = SCE_VB_KEYWORD ∧ stylePrev ≠ SCE_VB_KEYWORD then
      foldKeyword doc styles endPos st i
    else if style = SCE_VB_PREPROCESSOR then
      if matchLC doc i (lit "#if") ∨ matchLC doc i (lit "#region")
          ∨ matchLC doc i (lit "#externalsource") then
        { st with levelNext := st.levelNext + 1 }
      else if matchLC doc i (lit "#end") then { st with levelNext := st.levelNext - 1 }
      else st
    else if style = SCE_VB_OPERATOR then
      if ch = 123 ∨ ch = 125 then
        { st with levelNext := st.levelNext + (124 - (ch : Int)) }
      else st
    else st
  let st : FoldSt := if st.visibleChars = 0 ∧ ¬ isspacechar ch then
      { st with visibleChars := 1 }
    else st
  if i + 1 = st.lineStartNext then
    let foldNext := (annAt anns (st.lineCurrent + 1)).1
    let lvl := max st.levelNext SC_FOLDLEVELBASE
    let lvl :=
      if foldLineType st.foldCurrent ≠ 0 then
        let lvl := if foldLineType st.foldCurrent ≠ foldLineType st.foldPrev then lvl + 1 else lvl
        if foldLineType st.foldCurrent ≠ foldLineType foldNext then lvl - 1 else lvl
      else lvl
    { st with
      levels := (st.lineCurrent, st.levelCurrent, lvl, st.levelCurrent < lvl) :: st.levels
      levelNext := lvl
      levelCurrent := lvl
      lineCurrent := st.lineCurrent + 1
      lineStartNext := min (lineStart doc (st.lineCurrent + 2)) endPos
      foldPrev := st.foldCurrent
      foldCurrent := foldNext
      visibleChars := 0 }
  else st

/-- The fold loop, fuelled by the number of remaining positions. -/
def foldRun (doc styles : List Nat) (anns : List (Nat × Nat × Int))
    (endPos : Nat) : Nat → FoldSt → Nat → FoldSt
  | 0, st, _ => st
  | fuel + 1, st, i =>
    if i < endPos then foldRun doc styles anns endPos fuel (foldIter doc styles anns endPos st i) (i + 1)
    else st

/-- The output of one fold invocation: per-line records
`(line, level at start, level at end, header flag)` and the final values
of the two static line trackers. -/
structure FoldOut where
  levels : List (Nat × Int × Int × Bool)
  lineIf : Nat
  lineThen : Nat
deriving DecidableEq, Repr

/-- `FoldVBDoc` over a whole document (fold start at position 0): the two
C `static` variables `lineIf` / `lineThen` enter as `lineIf0` /
`lineThen0` — in the C code they persist from whatever earlier invocation
ran in the same process (0 at process start). -/
def FoldVBDoc (doc styles : List Nat) (anns : List (Nat × Nat × Int))
    (lineIf0 lineThen0 : Nat) : FoldOut :=
  let seed : FoldSt := {
    levelNext := SC_FOLDLEVELBASE
    levelCurrent := SC_FOLDLEVELBASE
    visibleChars := 0
    numBegin := 0
    isEnd := false
    isInterface := false
    isProperty := false
    isCustom := false
    isExit := false
    isDeclare := false
    isIf := false
    lineIf := lineIf0
    lineThen := lineThen0
    lineCurrent := 0
    lineStartNext := min (lineStart doc 1) doc.length
    foldPrev := 0
    foldCurrent := (annAt anns 0).1
    levels := [] }
  let fin := foldRun doc styles anns doc.length doc.length seed 0
  { levels := fin.levels.reverse, lineIf := fin.lineIf, lineThen := fin.lineThen }

/- Concrete keyword sets and documents used by the concrete-instance
theorems and witnesses. -/

/-- A small core keyword set (keyword membership is a run parameter of
the lexer; this set contains the keywords the example documents use). -/
def kwMain : List (List Nat) := [lit "if", lit "then", lit "end", lit "sub",
  lit "function", lit "dim", lit "const", lit "type", lit "do", lit "loop",
  lit "while", lit "for", lit "next", lit "wend", lit "public", lit "private",
  lit "protected", lit "friend"]

/-- Example run configuration: the .NET dialect with `kwMain` as the core
keyword set. -/
def P0 : VBParams where
  language := .VBNET
  keywords := kwMain
  keywords2 := []
  keywords3 := []
  keywords4 := []
  keywords5 := []
  keywords6 := []

/-- A state in the middle of an interpolated string's embedded expression
(one open interpolation level, inside the expression code). -/
def stExpr : VBSt := { st0 with state := SCE_VB_DEFAULT, nestedState := [0], parenCount := 1 }

/-- A state scanning interpolated-string text with one open nest level. -/
def stIStr : VBSt :=
  { st0 with state := SCE_VB_INTERPOLATED_STRING, nestedState := [0], parenCount := 1 }

/-- A state scanning interpolated-string text with no open expression. -/
def stIStr0 : VBSt := { st0 with state := SCE_VB_INTERPOLATED_STRING }

/-- A state in the FileNumber disambiguation state. -/
def stFileNb : VBSt :=
  { st0 with state := SCE_VB_FILENUMBER, pending := [49, 35], fileNbDigits := 1 }

/-- C3: in the FileNumber state the scanner counts consecutive digits:
up to three digits it stays in FileNumber; on the digit that takes the
count past 3 it reclassifies the token as Date and keeps scanning; on a
comma or a line-end character it reclassifies the token as Number and
closes it (flushing the pending run with the Number style); on a second
`#` it reclassifies as Date and closes the token consuming the `#`; on
any other character it reclassifies as Date without closing and continues
in the Date state. -/
theorem c3_filenumber_disambiguation :
    (∀ (doc : List Nat) (endPos : Nat) (st : VBSt) (pos : Nat),
      isADigit (chAt doc pos) = true → st.fileNbDigits + 1 ≤ 3 →
      fileNumberCase doc endPos st pos =
        .fall { st with fileNbDigits := st.fileNbDigits + 1 } pos)
    ∧ (∀ (doc : List Nat) (endPos : Nat) (st : VBSt) (pos : Nat),
      isADigit (chAt doc pos) = true → st.fileNbDigits + 1 > 3 →
      (fileNumberCase doc endPos st pos).st.state = SCE_VB_DATE
        ∧ (fileNumberCase doc endPos st pos).st.styled = st.styled
        ∧ (fileNumberCase doc endPos st pos).st.fileNbDigits = 0
        ∧ (fileNumberCase doc endPos st pos).pos = pos)
    ∧ (∀ (doc : List Nat) (endPos : Nat) (st : VBSt) (pos : Nat),
      (chAt doc pos = 13 ∨ chAt doc pos = 10 ∨ chAt doc pos = 44) →
      (fileNumberCase doc endPos st pos).st.state = SCE_VB_DEFAULT
        ∧ (fileNumberCase doc endPos st pos).st.styled =
            List.replicate st.pending.length SCE_VB_NUMBER ++ st.styled
        ∧ (fileNumberCase doc endPos st pos).st.pending = []
        ∧ (fileNumberCase doc endPos st pos).pos = pos)
    ∧ (∀ (doc : List Nat) (endPos : Nat) (st : VBSt) (pos : Nat),
      chAt doc pos = 35 → pos < endPos →
      (fileNumberCase doc endPos st pos).st.state = SCE_VB_DEFAULT
        ∧ (fileNumberCase doc endPos st pos).st.styled =
            List.replicate (st.pending.length + 1) SCE_VB_DATE ++ st.styled
        ∧ (fileNumberCase doc endPos st pos).pos = pos + 1)
    ∧ (∀ (doc : List Nat) (endPos : Nat) (st : VBSt) (pos : Nat),
      isADigit (chAt doc pos) = false →
      ¬ (chAt doc pos = 13 ∨ chAt doc pos = 10 ∨ chAt doc pos = 44) →
      chAt doc pos ≠ 35 →
      fileNumberCase doc endPos st pos =
        .fall (chgState { st with fileNbDigits := 0 } SCE_VB_DATE) pos) := by
  refine ⟨?_, ?_, ?_, ?_, ?_⟩
  · intro doc endPos st pos hd hle
    simp only [fileNumberCase, hd, if_true]
    have : ¬ st.fileNbDigits + 1 > 3 := by omega
    simp [this]
  · intro doc endPos st pos hd hgt
    simp only [fileNumberCase, hd, if_true]
    simp [hgt, chgState, SwRes.st, SwRes.pos]
  · intro doc endPos st pos hc
    have hd : isADigit (chAt doc pos) = false := by
      rcases hc with h | h | h <;> simp [h, isADigit]
    simp only [fileNumberCase, hd]
    simp [hc, flushTo, chgState, SwRes.st, SwRes.pos]
  · intro doc endPos st pos hc hlt
    have hd : isADigit 35 = false := by decide
    simp only [fileNumberCase, hc, hd]
    simp [flushTo, chgState, pushPending, hlt, hc, SwRes.st, SwRes.pos,
      List.replicate_succ]
  · intro doc endPos st pos hd hno hne
    simp [fileNumberCase, hd, hno, hne]

/-- C3 witness: concrete instances of the FileNumber rules — a second
digit of `#12` keeps counting in FileNumber, and a `/` after `#10`
reclassifies the token as Date without closing it. -/
theorem c3_filenumber_disambiguation_witness :
    fileNumberCase (lit "#12") 3 stFileNb 2 =
        .fall { stFileNb with fileNbDigits := 2 } 2
      ∧ fileNumberCase (lit "#10/") 4 { stFileNb with pending := [48, 49, 35] } 3 =
        .fall (chgState { stFileNb with pending := [48, 49, 35], fileNbDigits := 0 }
          SCE_VB_DATE) 3 := by
  constructor
  · exact c3_filenumber_disambiguation.1 (lit "#12") 3 stFileNb 2 (by decide) (by decide)
  · exact c3_filenumber_disambiguation.2.2.2.2 (lit "#10/") 4
      { stFileNb with pending := [48, 49, 35] } 3 (by decide) (by decide) (by decide)

/-- C8: at the start of a new line with the string still open, every
dialect except DotNet forcibly ends the string: the pending string run is
flushed with its string style and the scanner reverts to Default (the
line-start character is then re-dispatched as ordinary code).  For the
DotNet dialect the same step leaves the string state untouched (for an
ordinary content character), so the string continues across the line
boundary. -/
theorem c8_string_line_boundary :
    (∀ (P : VBParams) (doc : List Nat) (endPos : Nat) (st : VBSt) (pos : Nat),
      (st.state = SCE_VB_STRING ∨ st.state = SCE_VB_INTERPOLATED_STRING) →
      atLineStart doc pos = true → P.language ≠ .VBNET →
      stringCase P doc endPos st pos = .fall (flushTo st SCE_VB_DEFAULT) pos)
    ∧ (∀ (P : VBParams) (doc : List Nat) (endPos : Nat) (st : VBSt) (pos : Nat),
      atLineStart doc pos = true → P.language = .VBNET →
      chAt doc pos ≠ 34 → chAt doc pos ≠ 123 → chAt doc pos ≠ 125 →
      stringCase P doc endPos st pos = .fall st pos) := by
  constructor
  · intro P doc endPos st pos _ hls hl
    simp [stringCase, hls, hl]
  · intro P doc endPos st pos hls hl h34 h123 h125
    simp only [stringCase]
    simp [hl, h34, h123, h125]

/-- C8 witness: VBA closes a string at the line boundary of `"a\nb`,
while VB.NET leaves the string open there. -/
theorem c8_string_line_boundary_witness :
    stringCase { P0 with language := .VBA } (lit "\"a\nb") 4
        { st0 with state := SCE_VB_STRING, pending := [10, 97, 34] } 3 =
      .fall (flushTo { st0 with state := SCE_VB_STRING, pending := [10, 97, 34] }
        SCE_VB_DEFAULT) 3
      ∧ stringCase P0 (lit "\"a\nb") 4
          { st0 with state := SCE_VB_STRING, pending := [10, 97, 34] } 3 =
        .fall { st0 with state := SCE_VB_STRING, pending := [10, 97, 34] } 3 := by
  constructor
  · exact c8_string_line_boundary.1 { P0 with language := .VBA } (lit "\"a\nb") 4
      { st0 with state := SCE_VB_STRING, pending := [10, 97, 34] } 3
      (Or.inl rfl) (by decide) (by decide)
  · exact c8_string_line_boundary.2 P0 (lit "\"a\nb") 4
      { st0 with state := SCE_VB_STRING, pending := [10, 97, 34] } 3
      (by decide) rfl (by decide) (by decide) (by decide)

/-- C10: a `}` scanned in the InterpolatedString state while the
interpolation nest stack is empty never pops the stack and never changes
`parenCount`: a `}}` pair is consumed as a literal-brace escape (the two
characters stay string content and the scanner advances past the first so
the pair cannot be reinterpreted), and a lone `}` remains ordinary string
content; the stack is popped only when it is non-empty. -/
theorem c10_brace_no_underflow :
    (∀ (P : VBParams) (doc : List Nat) (endPos : Nat) (st : VBSt) (pos : Nat),
      st.state = SCE_VB_INTERPOLATED_STRING → P.language = .VBNET →
      st.nestedState = [] → chAt doc pos = 125 → chAt doc (pos + 1) ≠ 125 →
      stringCase P doc endPos st pos = .fall st pos)
    ∧ (∀ (P : VBParams) (doc : List Nat) (endPos : Nat) (st : VBSt) (pos : Nat),
      st.state = SCE_VB_INTERPOLATED_STRING → P.language = .VBNET →
      st.nestedState = [] → chAt doc pos = 125 → chAt doc (pos + 1) = 125 →
      stringCase P doc endPos st pos = .fall (pushPending doc endPos st pos) (pos + 1)
        ∧ (pushPending doc endPos st pos).nestedState = []
        ∧ (pushPending doc endPos st pos).parenCount = st.parenCount
        ∧ (pushPending doc endPos st pos).state = SCE_VB_INTERPOLATED_STRING) := by
  constructor
  · intro P doc endPos st pos hst hl hn hc hc2
    simp [stringCase, hst, hl, hn, hc, hc2]
  · intro P doc endPos st pos hst hl hn hc hc2
    refine ⟨by simp [stringCase, hst, hl, hn, hc, hc2], ?_, ?_, ?_⟩ <;>
      simp [pushPending, hst, hn] <;> split <;> simp [hst, hn]

/-- C10 witness: a lone `}` and a `}}` escape in `$"a}b"`-style content
with an empty nest stack leave the stack empty and the state unchanged. -/
theorem c10_brace_no_underflow_witness :
    stringCase P0 (lit "\x7dx") 2 stIStr0 0 = .fall stIStr0 0
      ∧ stringCase P0 (lit "\x7d\x7d") 2 stIStr0 0 =
        .fall (pushPending (lit "\x7d\x7d") 2 stIStr0 0) 1 := by
  constructor
  · exact c10_brace_no_underflow.1 P0 (lit "\x7dx") 2 stIStr0 0 rfl rfl rfl
      (by decide) (by decide)
  · exact (c10_brace_no_underflow.2 P0 (lit "\x7d\x7d") 2 stIStr0 0 rfl rfl rfl
      (by decide) (by decide)).1

/-- C2: while scanning an interpolated string's embedded expression
(Default state with a non-empty InterpolationNestStack), a `(` increments
and a `)` decrements the innermost nest counter while `parenCount` stays
unchanged, and neither switches the scanner back to the
InterpolatedString state — so a nested parenthesis is never taken for the
expression's closing brace.  The `{` that opens an expression pushes a
zero counter and increments `parenCount`; the unmatched `}` that closes
it pops the stack and decrements `parenCount`, returning both to their
pre-`{` values and the scanner to InterpolatedString. -/
theorem c2_interpolation_nest_parens :
    (∀ (P : VBParams) (doc : List Nat) (endPos : Nat) (st : VBSt) (pos : Nat)
      (k : Int) (ks : List Int),
      st.nestedState = k :: ks → chAt doc pos = 40 →
      (vbDispatch P doc endPos st pos).st.nestedState = (k + 1) :: ks
        ∧ (vbDispatch P doc endPos st pos).st.parenCount = st.parenCount
        ∧ (vbDispatch P doc endPos st pos).st.state = SCE_VB_OPERATOR2
        ∧ (vbDispatch P doc endPos st pos).pos = pos)
    ∧ (∀ (P : VBParams) (doc : List Nat) (endPos : Nat) (st : VBSt) (pos : Nat)
      (k : Int) (ks : List Int),
      st.nestedState = k :: ks → chAt doc pos = 41 →
      (vbDispatch P doc endPos st pos).st.nestedState = (k - 1) :: ks
        ∧ (vbDispatch P doc endPos st pos).st.parenCount = st.parenCount
        ∧ (vbDispatch P doc endPos st pos).st.state = SCE_VB_OPERATOR2
        ∧ (vbDispatch P doc endPos st pos).pos = pos)
    ∧ (∀ (P : VBParams) (doc : List Nat) (endPos : Nat) (st : VBSt) (pos : Nat),
      st.state = SCE_VB_INTERPOLATED_STRING → P.language = .VBNET →
      chAt doc pos = 123 → chAt doc (pos + 1) ≠ 123 →
      (stringCase P doc endPos st pos).st.nestedState = 0 :: st.nestedState
        ∧ (stringCase P doc endPos st pos).st.parenCount = st.parenCount + 1
        ∧ (stringCase P doc endPos st pos).st.state = SCE_VB_DEFAULT
        ∧ (stringCase P doc endPos st pos).pos = pos + 1)
    ∧ (∀ (P : VBParams) (doc : List Nat) (endPos : Nat) (st : VBSt) (pos : Nat)
      (k : Int) (ks : List Int),
      st.state = SCE_VB_INTERPOLATED_STRING → P.language = .VBNET →
      chAt doc pos = 125 → st.nestedState = k :: ks →
      (stringCase P doc endPos st pos).st.nestedState = ks
        ∧ (stringCase P doc endPos st pos).st.parenCount = st.parenCount - 1
        ∧ (stringCase P doc endPos st pos).st.state = SCE_VB_INTERPOLATED_STRING
        ∧ (stringCase P doc endPos st pos).pos = pos + 1) := by
  refine ⟨?_, ?_, ?_, ?_⟩
  · intro P doc endPos st pos k ks hn hc
    simp [vbDispatch, operCase, hc, hn, IsNumberStart, isADigit,
      isIdentifierStartEx, isIdentifierStart, isAlphaCh, isAGraphic,
      IsInterpolatedStringEnd, bumpTop, chgState, flushTo, SwRes.st, SwRes.pos]
  · intro P doc endPos st pos k ks hn hc
    simp [vbDispatch, operCase, hc, hn, IsNumberStart, isADigit,
      isIdentifierStartEx, isIdentifierStart, isAlphaCh, isAGraphic,
      IsInterpolatedStringEnd, bumpTop, chgState, flushTo, SwRes.st, SwRes.pos,
      sub_eq_add_neg]
  · intro P doc endPos st pos hst hl hc hc2
    by_cases hpe : pos < endPos <;>
      simp [stringCase, hst, hl, hc, hc2, flushTo, chgState, pushPending, hpe,
        SwRes.st, SwRes.pos]
  · intro P doc endPos st pos k ks hst hl hc hn
    by_cases hpe : pos < endPos <;>
      simp [stringCase, hst, hl, hc, hn, flushTo, chgState, pushPending, hpe,
        SwRes.st, SwRes.pos]

/-- C2 witness: the four interpolation bookkeeping rules at concrete
inputs — `(` and `)` adjust only the innermost nest counter, `{` pushes a
zero counter and bumps `parenCount`, and the unmatched `}` pops and
restores it. -/
theorem c2_interpolation_nest_parens_witness :
    ((vbDispatch P0 (lit "(") 1 stExpr 0).st.nestedState = [1]
        ∧ (vbDispatch P0 (lit "(") 1 stExpr 0).st.parenCount = 1)
      ∧ ((vbDispatch P0 (lit ")") 1 stExpr 0).st.nestedState = [-1]
        ∧ (vbDispatch P0 (lit ")") 1 stExpr 0).st.parenCount = 1)
      ∧ ((stringCase P0 (lit "\x7ba") 2 stIStr0 0).st.nestedState = [0]
        ∧ (stringCase P0 (lit "\x7ba") 2 stIStr0 0).st.parenCount = 1
        ∧ (stringCase P0 (lit "\x7ba") 2 stIStr0 0).st.state = SCE_VB_DEFAULT)
      ∧ ((stringCase P0 (lit "\x7d") 1 stIStr 0).st.nestedState = []
        ∧ (stringCase P0 (lit "\x7d") 1 stIStr 0).st.parenCount = 0
        ∧ (stringCase P0 (lit "\x7d") 1 stIStr 0).st.state
            = SCE_VB_INTERPOLATED_STRING) := by
  refine ⟨⟨?_, ?_⟩, ⟨?_, ?_⟩, ⟨?_, ?_, ?_⟩, ⟨?_, ?_, ?_⟩⟩
  · exact (c2_interpolation_nest_parens.1 P0 (lit "(") 1 stExpr 0 0 [] rfl rfl).1
  · exact (c2_interpolation_nest_parens.1 P0 (lit "(") 1 stExpr 0 0 [] rfl rfl).2.1
  · exact (c2_interpolation_nest_parens.2.1 P0 (lit ")") 1 stExpr 0 0 [] rfl rfl).1
  · exact (c2_interpolation_nest_parens.2.1 P0 (lit ")") 1 stExpr 0 0 [] rfl rfl).2.1
  · exact (c2_interpolation_nest_parens.2.2.1 P0 (lit "\x7ba") 2 stIStr0 0 rfl rfl rfl
      (by decide)).1
  · exact (c2_interpolation_nest_parens.2.2.1 P0 (lit "\x7ba") 2 stIStr0 0 rfl rfl rfl
      (by decide)).2.1
  · exact (c2_interpolation_nest_parens.2.2.1 P0 (lit "\x7ba") 2 stIStr0 0 rfl rfl rfl
      (by decide)).2.2.1
  · exact (c2_interpolation_nest_parens.2.2.2 P0 (lit "\x7d") 1 stIStr 0 0 [] rfl rfl rfl
      rfl).1
  · exact (c2_interpolation_nest_parens.2.2.2 P0 (lit "\x7d") 1 stIStr 0 0 [] rfl rfl rfl
      rfl).2.1
  · exact (c2_interpolation_nest_parens.2.2.2 P0 (lit "\x7d") 1 stIStr 0 0 [] rfl rfl rfl
      rfl).2.2.1

/-- C4: in the Default state, `&` followed by a radix prefix starts a
Number token exactly when the preceding significant character/style does
not prefer string concatenation; `PreferStringConcat` holds precisely for
a closing quote, `)`, `]`, or an identifier-class character whose style
is not keyword.  Concretely, `&H1F` lexes entirely as Number, and in
`x & "y"` the `&` lexes as Operator. -/
theorem c4_amp_radix_vs_concat :
    (∀ ch style : Nat, PreferStringConcat ch style = true ↔
      ch = 34 ∨ ch = 41 ∨ ch = 93
        ∨ (style ≠ SCE_VB_KEYWORD ∧ isIdentifierChar ch = true))
    ∧ (∀ (P : VBParams) (doc : List Nat) (endPos : Nat) (st : VBSt) (pos : Nat),
      chAt doc pos = 38 → IsVBNumberPrefixChar (chAt doc (pos + 1)) = true →
      st.nestedState = [] →
      (PreferStringConcat st.chPrevNonWhite st.stylePrevNonWhite = false →
        (vbDispatch P doc endPos st pos).st.state = SCE_VB_NUMBER
          ∧ (vbDispatch P doc endPos st pos).pos = pos + 1)
        ∧ (PreferStringConcat st.chPrevNonWhite st.stylePrevNonWhite = true →
          (vbDispatch P doc endPos st pos).st.state = SCE_VB_OPERATOR
            ∧ (vbDispatch P doc endPos st pos).pos = pos))
    ∧ (fullLexVB P0 (lit "&H1F\n")).styles =
        [SCE_VB_NUMBER, SCE_VB_NUMBER, SCE_VB_NUMBER, SCE_VB_NUMBER, SCE_VB_DEFAULT]
    ∧ (fullLexVB P0 (lit "x & \"y\"\n")).styles.getD 2 0 = SCE_VB_OPERATOR := by
  refine ⟨?_, ?_, by decide, by decide⟩
  · intro ch style
    simp [PreferStringConcat, SCE_VB_KEYWORD]
    tauto
  · intro P doc endPos st pos hc hpre hn
    constructor
    · intro hp
      by_cases hpe : pos < endPos <;>
        simp [vbDispatch, operCase, hc, hpre, hn, hp, hpe, flushTo, chgState,
          pushPending, SwRes.st, SwRes.pos]
    · intro hp
      simp [vbDispatch, operCase, hc, hpre, hn, hp, IsNumberStart, isADigit,
        isIdentifierStartEx, isIdentifierStart, isAlphaCh, isAGraphic, flushTo,
        chgState, SwRes.st, SwRes.pos]

/-- C4 witness: with no preceding significant character `&H1` starts a
Number token; after an identifier `x` the same `&` becomes an Operator. -/
theorem c4_amp_radix_vs_concat_witness :
    (vbDispatch P0 (lit "&H1") 3 st0 0).st.state = SCE_VB_NUMBER
      ∧ (vbDispatch P0 (lit "&H1") 3
          { st0 with chPrevNonWhite := 120, stylePrevNonWhite := SCE_VB_IDENTIFIER }
          0).st.state = SCE_VB_OPERATOR := by
  constructor
  · exact ((c4_amp_radix_vs_concat.2.1 P0 (lit "&H1") 3 st0 0 (by decide) (by decide)
      rfl).1 (by decide)).1
  · exact ((c4_amp_radix_vs_concat.2.1 P0 (lit "&H1") 3
      { st0 with chPrevNonWhite := 120, stylePrevNonWhite := SCE_VB_IDENTIFIER } 0
      (by decide) (by decide) rfl).2 (by decide)).1

/-- C9 counterexample: in `x y:` the identifier `y` matches none of the
higher-priority classifications and is immediately followed by `:` as the
next visible character of the line, yet it is classified Identifier, not
Label — the claim omits the requirement that the identifier be the first
visible token of its line. -/
theorem c9_label_counterexample :
    (fullLexVB P0 (lit "x y:\n")).styles.getD 2 0 = SCE_VB_IDENTIFIER
      ∧ SCE_VB_IDENTIFIER ≠ SCE_VB_LABEL := by decide

/-- C9 (amended): an identifier that matches none of the higher-priority
classifications (bracketed form, preprocessor continuation, core keyword,
type keyword), is immediately followed by `:` as the next visible
character on the line, and is the first visible token of its line (the
visible-character count equals the token length) is classified with the
label style. -/
theorem c9_label_classification (P : VBParams) (doc : List Nat) (endPos : Nat)
    (st : VBSt) (pos : Nat) (tok : List Nat) (len : Nat)
    (hh : tok.headD 0 ≠ 91)
    (h1 : ¬ (st.isIfThenPreprocessor = true ∧ tok = lit "then"))
    (h2 : ¬ (st.isEndPreprocessor = true
      ∧ (tok = lit "if" ∨ tok = lit "region" ∨ tok = lit "externalsource")))
    (hkw : P.keywords.contains tok = false)
    (hkw2 : P.keywords2.contains tok = false)
    (hvis : st.visibleChars = len)
    (hnext : getLineNextChar doc endPos pos false = 58) :
    (classifyIdent P doc endPos st pos tok len).state = SCE_VB_LABEL := by
  have hpp : ¬ ((st.isIfThenPreprocessor = true ∧ tok = lit "then")
      ∨ (st.isEndPreprocessor = true
        ∧ (tok = lit "if" ∨ tok = lit "region" ∨ tok = lit "externalsource"))) := by
    tauto
  have hh' : ¬ (tok.head?.getD 0 = 91) := by simpa using hh
  have hkw' : tok ∉ P.keywords := by simpa using hkw
  have hkw2' : tok ∉ P.keywords2 := by simpa using hkw2
  have hcore : (classifyCore P doc endPos st pos tok len).state = SCE_VB_LABEL := by
    simp [classifyCore, hh', hpp, hkw', hkw2', hvis, hnext]
  simp [classifyIdent, hcore, SCE_VB_LABEL, SCE_VB_KEYWORD]

/-- C9 witness: the single-token line `y:` is labelled. -/
theorem c9_label_classification_witness :
    (classifyIdent P0 (lit "y:") 2 { st0 with visibleChars := 1 } 1
      (lit "y") 1).state = SCE_VB_LABEL :=
  c9_label_classification P0 (lit "y:") 2 { st0 with visibleChars := 1 } 1
    (lit "y") 1 (by decide) (by decide) (by decide) (by decide) (by decide) rfl
    (by decide)

/-- The two-line VB.NET document `X = "a` / `"&H1` whose string literal
stays open across the line boundary (multi-line string). -/
def docSplit : List Nat := lit "X = \"a\n\"&H1\n"

/-- The spec's single-line `If` example. -/
def docIf : List Nat := lit "If x > 0 Then y = 1\n"

/-- A single-line `If ... Then ... End If` statement. -/
def docIf2 : List Nat := lit "If x > 0 Then y = 1 End If\n"

/-- A `Do` block containing a stray `End If` line. -/
def docDo : List Nat := lit "Do\nEnd If\nLoop\n"

/-- C1: lexing `X = "a` / `"&H1` in one call styles the line-2 `&` as an
Operator (the string content character `a` before it prefers the
concatenation reading), but lexing the same document in two calls split
at the line boundary styles `&H1` as a Number: the resumed call starts
inside the still-open string, whose style is not space-equivalent, so the
look-back that recovers the last significant character never runs and
`chPrevNonWhite` is lost.  The split re-lex therefore does not reproduce
the single-call styles, falsifying the idempotence property at this
input. -/
theorem c1_split_relex_diverges :
    (fullLexVB P0 docSplit).styles.getD 8 0 = SCE_VB_OPERATOR
      ∧ (splitLexVB P0 docSplit 1).getD 8 0 = SCE_VB_NUMBER
      ∧ splitLexVB P0 docSplit 1 ≠ (fullLexVB P0 docSplit).styles := by decide

/-- C5: for the single-line statement `If x > 0 Then y = 1` the folder's
running depth at the end of the line equals the depth at its start (the
`if` +1 is compensated by the −1 at `then` because code follows it), and
for `If x > 0 Then y = 1 End If` the `End If` on the same line as its
`If` and `Then` also nets zero via the +1 compensation. -/
theorem c5_single_line_if_nets_zero :
    (FoldVBDoc docIf (fullLexVB P0 docIf).styles (fullLexVB P0 docIf).anns 0 0).levels
      = [(0, SC_FOLDLEVELBASE, SC_FOLDLEVELBASE, false)]
      ∧ (FoldVBDoc docIf2 (fullLexVB P0 docIf2).styles
          (fullLexVB P0 docIf2).anns 0 0).levels
        = [(0, SC_FOLDLEVELBASE, SC_FOLDLEVELBASE, false)] := by decide

/-- C6: the folder is not a pure function of its inputs — the C
`static` trackers `lineIf` / `lineThen` (modelled as the last two
arguments) survive from earlier invocations in the same process, and two
folds of the same document / styles / line annotations with different
residual tracker values produce different fold levels: on
`Do` / `End If` / `Loop` the stray `End If` line keeps level 1025 when a
stale `lineIf = lineThen = 1` is left over (the single-line-`If`
compensation fires spuriously), but drops to 1024 in a fresh process. -/
theorem c6_folder_static_state_leak :
    (FoldVBDoc docDo (fullLexVB P0 docDo).styles
        (fullLexVB P0 docDo).anns 0 0).levels.getD 1 (0, 0, 0, false)
      = (1, 1025, 1024, false)
      ∧ (FoldVBDoc docDo (fullLexVB P0 docDo).styles
          (fullLexVB P0 docDo).anns 1 1).levels.getD 1 (0, 0, 0, false)
        = (1, 1025, 1025, false)
      ∧ (FoldVBDoc docDo (fullLexVB P0 docDo).styles
          (fullLexVB P0 docDo).anns 0 0).levels
        ≠ (FoldVBDoc docDo (fullLexVB P0 docDo).styles
          (fullLexVB P0 docDo).anns 1 1).levels := by decide

/- Totality of the tokenizer (claim C7).  The measure `mSt` counts the
characters styled or pending so far; every iteration of the scanning loop
advances the position and keeps the measure equal to the number of
in-range positions consumed, so a full run styles exactly one style per
character of the range. -/

/-- Number of characters accounted for by a scanner state (already
flushed plus pending in the current run). -/
def mSt (st : VBSt) : Nat := st.styled.length + st.pending.length

theorem mSt_flushTo (st : VBSt) (s : Nat) : mSt (flushTo st s) = mSt st := by
  simp [mSt, flushTo, Nat.add_comm]

theorem mSt_chgState (st : VBSt) (s : Nat) : mSt (chgState st s) = mSt st := rfl

theorem mSt_pushPending (doc : List Nat) (endPos : Nat) (st : VBSt) (p : Nat) :
    mSt (pushPending doc endPos st p) = mSt st + (min (p + 1) endPos - min p endPos) := by
  unfold pushPending
  split <;> simp [mSt] <;> omega

/-- The loop-body invariant: the measure grows by exactly the number of
in-range positions passed, and the position never moves backward (it
strictly advances on an iteration-ending `continue`). -/
def IterOk (endPos mIn pos : Nat) : SwRes → Prop
  | .fall s p => mSt s + min pos endPos = mIn + min p endPos ∧ pos ≤ p
  | .done s p => mSt s + min pos endPos = mIn + min p endPos ∧ pos < p

theorem stringCase_ok (P : VBParams) (doc : List Nat) (endPos : Nat) (st : VBSt)
    (pos : Nat) : IterOk endPos (mSt st) pos (stringCase P doc endPos st pos) := by
  by_cases hpe : pos < endPos <;>
    (unfold stringCase
     split_ifs <;>
       simp [IterOk, mSt, flushTo, pushPending, chgState, hpe] <;>
       (try omega) <;>
       split_ifs <;> simp [IterOk, mSt, hpe] <;> omega)

theorem classifyIdent_styled (P : VBParams) (doc : List Nat) (endPos : Nat)
    (st : VBSt) (pos : Nat) (tok : List Nat) (len : Nat) :
    (classifyIdent P doc endPos st pos tok len).styled = st.styled := by
  unfold classifyIdent
  dsimp only
  split <;> rfl

theorem classifyIdent_pending (P : VBParams) (doc : List Nat) (endPos : Nat)
    (st : VBSt) (pos : Nat) (tok : List Nat) (len : Nat) :
    (classifyIdent P doc endPos st pos tok len).pending = st.pending := by
  unfold classifyIdent
  dsimp only
  split <;> rfl

theorem identCase_ok (P : VBParams) (doc : List Nat) (endPos : Nat) (st : VBSt)
    (pos : Nat) : IterOk endPos (mSt st) pos (identCase P doc endPos st pos) := by
  by_cases hid : isIdentifierCharEx (chAt doc pos) = true
  · simp [identCase, hid, IterOk]
  · by_cases hsuf : chAt doc pos = 93
      ∨ (¬ P.language = VBLanguage.VBScript ∧ IsTypeCharacter (chAt doc pos) = true) <;>
    by_cases hpe : pos < endPos <;>
    by_cases h93 : chAt doc pos = 93 <;>
      (simp only [identCase, hid, hsuf, pushPending, hpe, h93, Bool.false_eq_true,
        if_true, if_false, ite_true, ite_false, iff_true, iff_false, not_false_iff]
       repeat' split
       all_goals
         simp [IterOk, mSt, chgState, flushTo, classifyIdent_styled,
           classifyIdent_pending, hpe, h93] <;> omega)

theorem commentCase_ok (P : VBParams) (doc : List Nat) (endPos : Nat) (st : VBSt)
    (pos : Nat) : IterOk endPos (mSt st) pos (commentCase P doc endPos st pos) := by
  by_cases hpe : pos < endPos <;>
    (unfold commentCase
     try dsimp only
     split_ifs <;> simp [IterOk, mSt, flushTo, pushPending, chgState, hpe] <;> omega)

theorem fileNumberCase_ok (doc : List Nat) (endPos : Nat) (st : VBSt)
    (pos : Nat) : IterOk endPos (mSt st) pos (fileNumberCase doc endPos st pos) := by
  by_cases hpe : pos < endPos <;>
    (unfold fileNumberCase
     try dsimp only
     split_ifs <;> simp [IterOk, mSt, flushTo, pushPending, chgState, hpe] <;> omega)

theorem dateCase_ok (doc : List Nat) (endPos : Nat) (st : VBSt)
    (pos : Nat) : IterOk endPos (mSt st) pos (dateCase doc endPos st pos) := by
  by_cases hpe : pos < endPos <;>
    (unfold dateCase
     try dsimp only
     split_ifs <;> simp [IterOk, mSt, flushTo, pushPending, chgState, hpe] <;> omega)

theorem formatCase_ok (P : VBParams) (doc : List Nat) (endPos : Nat) (st : VBSt)
    (pos : Nat) : IterOk endPos (mSt st) pos (formatCase P doc endPos st pos) := by
  unfold formatCase
  split_ifs with h
  · have := stringCase_ok P doc endPos (flushTo st SCE_VB_INTERPOLATED_STRING) pos
    simpa [mSt_flushTo] using this
  · simp [IterOk]

theorem vbSwitch_ok (P : VBParams) (doc : List Nat) (endPos : Nat) (st : VBSt)
    (pos : Nat) : IterOk endPos (mSt st) pos (vbSwitch P doc endPos st pos) := by
  unfold vbSwitch
  split_ifs <;>
    first
      | exact identCase_ok P doc endPos st pos
      | exact stringCase_ok P doc endPos st pos
      | exact commentCase_ok P doc endPos st pos
      | exact fileNumberCase_ok doc endPos st pos
      | exact dateCase_ok doc endPos st pos
      | exact formatCase_ok P doc endPos st pos
      | simp [IterOk, mSt_flushTo]

theorem iterOk_of_eq {endPos m1 m2 pos : Nat} {r : SwRes} (h : m1 = m2)
    (hk : IterOk endPos m1 pos r) : IterOk endPos m2 pos r := by
  subst h; exact hk

theorem operCase_ok (P : VBParams) (doc : List Nat) (endPos : Nat) (st : VBSt)
    (pos : Nat) : IterOk endPos (mSt st) pos (operCase P doc endPos st pos) := by
  unfold operCase
  dsimp only
  split_ifs <;>
    first
      | exact iterOk_of_eq (by simp [mSt, chgState, flushTo, Nat.add_comm])
          (stringCase_ok P doc endPos _ pos)
      | (simp [IterOk, mSt, flushTo, chgState] <;> omega)

theorem vbDispatch_ok (P : VBParams) (doc : List Nat) (endPos : Nat) (st : VBSt)
    (pos : Nat) : IterOk endPos (mSt st) pos (vbDispatch P doc endPos st pos) := by
  by_cases hpe : pos < endPos <;>
    (unfold vbDispatch
     dsimp only
     split_ifs <;>
       first
         | exact operCase_ok P doc endPos st pos
         | (simp [IterOk, mSt, flushTo, pushPending, chgState, hpe] <;> omega))

theorem vbFinish_ok (doc : List Nat) (endPos : Nat) (st : VBSt) (pos : Nat) :
    mSt (vbFinish doc endPos st pos).1 + min pos endPos
        = mSt st + min (pos + 1) endPos
      ∧ (vbFinish doc endPos st pos).2 = pos + 1 := by
  unfold vbFinish
  dsimp only
  split_ifs <;> simp [mSt, pushPending] <;> split_ifs <;> simp <;> omega

theorem vbIter_ok (P : VBParams) (doc : List Nat) (endPos : Nat) (st : VBSt)
    (pos : Nat) :
    mSt (vbIter P doc endPos st pos).1 + min pos endPos
        = mSt st + min (vbIter P doc endPos st pos).2 endPos
      ∧ pos < (vbIter P doc endPos st pos).2 := by
  unfold vbIter
  have h1 := vbSwitch_ok P doc endPos st pos
  cases hsw : vbSwitch P doc endPos st pos with
  | done s1 p1 =>
    rw [hsw] at h1
    simp only [IterOk] at h1
    simpa using h1
  | fall s1 p1 =>
    rw [hsw] at h1
    simp only [IterOk] at h1
    by_cases hd : s1.state = SCE_VB_DEFAULT
    · simp only [hd, if_true]
      have h2 := vbDispatch_ok P doc endPos s1 p1
      cases hdp : vbDispatch P doc endPos s1 p1 with
      | done s2 p2 =>
        rw [hdp] at h2
        simp only [IterOk] at h2
        simp only []
        constructor <;> omega
      | fall s2 p2 =>
        rw [hdp] at h2
        simp only [IterOk] at h2
        have h3 := vbFinish_ok doc endPos s2 p2
        rcases h3 with ⟨h3a, h3b⟩
        constructor
        · simp only [h3b] at h3a ⊢
          omega
        · simp only [h3b]
          omega
    · simp only [hd, if_false]
      have h3 := vbFinish_ok doc endPos s1 p1
      rcases h3 with ⟨h3a, h3b⟩
      constructor
      · simp only [hd, ite_false, h3b] at h3a ⊢
        omega
      · simp only [hd, ite_false, h3b]
        omega

theorem vbRun_m (P : VBParams) (doc : List Nat) (endPos : Nat) :
    ∀ (fuel : Nat) (st : VBSt) (pos : Nat), endPos ≤ pos + fuel →
      mSt (vbRun P doc endPos fuel st pos) + min pos endPos = mSt st + endPos := by
  intro fuel
  induction fuel with
  | zero =>
    intro st pos h
    simp only [vbRun]
    omega
  | succ n ih =>
    intro st pos h
    simp only [vbRun]
    split_ifs with hlt
    · have hit := vbIter_ok P doc endPos st pos
      have hr := ih (vbIter P doc endPos st pos).1 (vbIter P doc endPos st pos).2
        (by omega)
      omega
    · omega

/-- C7: the tokenizer is total — for every input byte sequence, every
dialect and keyword configuration, and every initial lexical state, a
full-range run of `ColouriseVBDoc` completes and assigns exactly one
style tag to every character position (the style output has exactly one
entry per input byte; malformed constructs are handled by the fallback
rules of the state machine, never by leaving a position unstyled). -/
theorem c7_tokenizer_total (P : VBParams) (doc : List Nat) (initStyle : Nat) :
    (ColouriseVBDoc P doc 0 doc.length initStyle [] []).styles.length
      = doc.length := by
  unfold ColouriseVBDoc
  have hdl : docLine doc 0 = 0 := by simp [docLine]
  simp only [hdl, ne_eq, not_true_eq_false, false_and, if_false, ite_false,
    Nat.sub_zero, gt_iff_lt, Nat.lt_irrefl, List.length_reverse]
  have hm := vbRun_m P doc doc.length doc.length
    { st0 with state := initStyle, line := 0 } 0 (by omega)
  simp only [mSt, st0, flushTo] at hm ⊢
  simp at hm ⊢
  omega
